import Mathlib

/-!
Shallow embedding of the in-memory library domain model from
`src/Self-Study-Gtest/project_library.cpp`:

* `Book`, `Member` mirror the two domain classes (fields as in the source;
  a `Book` is created with `available = true`, a `Member` with an empty
  borrowed list and `maxBooks = 3`, the default used by `registerMember`).
* `Library` mirrors the orchestrator class: two `std::map`s keyed by id are
  embedded as functions `String → Option _` (`mapInsert` models
  `map[id] = value`, which silently replaces an existing entry), and the
  injected `INotificationService` collaborator is embedded as the list of
  `(memberId, message)` pairs it has received, in call order — exactly what
  `FakeNotificationService` records.
* `addBook`, `registerMember`, `findBook`, `findMember`, `borrowBook`,
  `returnBook` translate the member functions line by line; the stateful
  C++ methods become state-passing functions returning the new `Library`
  (paired with the `bool` result where the source returns one).
-/

/-- `Book`: id/title/author plus the mutable `available` flag. -/
structure Book where
  id : String
  title : String
  author : String
  available : Bool
  deriving DecidableEq, Repr

/-- `Book` constructor: `available` starts `true`. -/
def Book.make (id title author : String) : Book :=
  { id := id, title := title, author := author, available := true }

/-- `Book::markBorrowed`: sets `available = false` unconditionally. -/
def Book.markBorrowed (b : Book) : Book :=
  { b with available := false }

/-- `Book::markReturned`: sets `available = true` unconditionally. -/
def Book.markReturned (b : Book) : Book :=
  { b with available := true }

/-- `Member`: id/name, the ordered borrowed-ids sequence, and the limit.
`maxBooks` is an `int` in the source but every construction path
(`registerMember`, via the constructor default) sets it to `3`, so `Nat`
is faithful for all states the program can build. -/
structure Member where
  id : String
  name : String
  borrowedBookIds : List String
  maxBooks : Nat
  deriving DecidableEq, Repr

/-- `Member` constructor: the borrowed vector starts empty, limit defaults to 3. -/
def Member.make (id nm : String) : Member :=
  { id := id, name := nm, borrowedBookIds := [], maxBooks := 3 }

/-- `Member::canBorrow`: `borrowedBookIds.size() < maxBooks`. -/
def Member.canBorrow (m : Member) : Bool :=
  m.borrowedBookIds.length < m.maxBooks

/-- `Member::addBorrowedBook`: `push_back(bookId)`. -/
def Member.addBorrowedBook (m : Member) (bookId : String) : Member :=
  { m with borrowedBookIds := m.borrowedBookIds ++ [bookId] }

/-- `Member::removeBorrowedBook`: erases the first occurrence of `bookId`
(the source also reports whether one was found, a result `Library` ignores). -/
def Member.removeBorrowedBook (m : Member) (bookId : String) : Member :=
  { m with borrowedBookIds := m.borrowedBookIds.erase bookId }

/-- `Member::hasBorrowedBook`: linear membership scan. -/
def Member.hasBorrowedBook (m : Member) (bookId : String) : Bool :=
  m.borrowedBookIds.contains bookId

/-- `map[k] = v` on a `std::map` embedded as a function: replace-or-insert. -/
def mapInsert {α : Type} (f : String → Option α) (k : String) (v : α) :
    String → Option α :=
  fun k2 => if k2 = k then some v else f k2

/-- `Library`: the two owned maps plus the record of every notification the
injected `INotificationService` has received, in call order. -/
structure Library where
  books : String → Option Book
  members : String → Option Member
  notifications : List (String × String)

/-- A freshly constructed `Library` (with a fresh recording notifier). -/
def emptyLibrary : Library :=
  { books := fun _ => none, members := fun _ => none, notifications := [] }

/-- `Library::addBook`: `books[id] = new Book(id, title, author)`. -/
def addBook (lib : Library) (id title author : String) : Library :=
  { lib with books := mapInsert lib.books id (Book.make id title author) }

/-- `Library::findBook`: map lookup, `nullptr` becomes `none`. -/
def findBook (lib : Library) (id : String) : Option Book :=
  lib.books id

/-- `Library::registerMember`: `members[id] = new Member(id, name)`. -/
def registerMember (lib : Library) (id nm : String) : Library :=
  { lib with members := mapInsert lib.members id (Member.make id nm) }

/-- `Library::findMember`: map lookup, `nullptr` becomes `none`. -/
def findMember (lib : Library) (id : String) : Option Member :=
  lib.members id

/-- `Library::borrowBook`: validate (both present, book available, member
under capacity), then mark the book borrowed, append to the member's list,
and send one notification. -/
def borrowBook (lib : Library) (memberId bookId : String) : Library × Bool :=
  match findMember lib memberId, findBook lib bookId with
  | some member, some book =>
    if !book.available then (lib, false)
    else if !member.canBorrow then (lib, false)
    else
      ({ books := mapInsert lib.books bookId book.markBorrowed,
         members := mapInsert lib.members memberId (member.addBorrowedBook bookId),
         notifications :=
           lib.notifications ++ [(memberId, "You have borrowed: " ++ book.title)] },
       true)
  | _, _ => (lib, false)

/-- `Library::returnBook`: validate (both present, member holds the book),
then mark the book returned, erase from the member's list, and send one
notification. -/
def returnBook (lib : Library) (memberId bookId : String) : Library × Bool :=
  match findMember lib memberId, findBook lib bookId with
  | some member, some book =>
    if !member.hasBorrowedBook bookId then (lib, false)
    else
      ({ books := mapInsert lib.books bookId book.markReturned,
         members := mapInsert lib.members memberId (member.removeBorrowedBook bookId),
         notifications :=
           lib.notifications ++ [(memberId, "You have returned: " ++ book.title)] },
       true)
  | _, _ => (lib, false)

/-- The condition under which `borrowBook` succeeds, in the spec's terms:
member present, book present, book available, member under capacity. -/
def borrowOK (lib : Library) (memberId bookId : String) : Bool :=
  match findMember lib memberId, findBook lib bookId with
  | some m, some b => b.available && m.canBorrow
  | _, _ => false

/-- The condition under which `returnBook` succeeds, in the spec's terms:
member present, book present, and the member's borrowed sequence contains
the book id. -/
def returnOK (lib : Library) (memberId bookId : String) : Bool :=
  match findMember lib memberId, findBook lib bookId with
  | some m, some _ => m.hasBorrowedBook bookId
  | _, _ => false

/-- The member stored under `memberId` holds `bookId` in its borrowed
sequence. -/
def borrowedBy (lib : Library) (bookId memberId : String) : Prop :=
  ∃ m, lib.members memberId = some m ∧ bookId ∈ m.borrowedBookIds

/-- The global borrowed/available consistency relation of the spec: every
unavailable book is held by exactly one member, and every held id belongs
to exactly one member and names a stored, unavailable book. -/
def ConsistentState (lib : Library) : Prop :=
  (∀ id b, lib.books id = some b → b.available = false →
    ∃! memberId, borrowedBy lib id memberId) ∧
  (∀ id memberId, borrowedBy lib id memberId →
    (∃! memberId2, borrowedBy lib id memberId2) ∧
    ∃ b, lib.books id = some b ∧ b.available = false)

/-- Auxiliary invariant: no member's borrowed sequence repeats an id. -/
def MembersNodup (lib : Library) : Prop :=
  ∀ memberId m, lib.members memberId = some m → m.borrowedBookIds.Nodup

/-- Library states reachable from a fresh `Library` by any sequence of the
four mutating operations. -/
inductive Reachable : Library → Prop where
  | empty : Reachable emptyLibrary
  | add_book {lib : Library} (id title author : String) :
      Reachable lib → Reachable (addBook lib id title author)
  | register_member {lib : Library} (id nm : String) :
      Reachable lib → Reachable (registerMember lib id nm)
  | borrow_book {lib : Library} (memberId bookId : String) :
      Reachable lib → Reachable (borrowBook lib memberId bookId).1
  | return_book {lib : Library} (memberId bookId : String) :
      Reachable lib → Reachable (returnBook lib memberId bookId).1

/-- `Reachable` restricted to sequences in which no `addBook` call reuses
the id of a book some member currently holds, and no `registerMember` call
reuses the id of a member whose borrowed sequence is nonempty (both maps
silently replace an existing entry, which would break the borrowed/available
relation). -/
inductive SafeReachable : Library → Prop where
  | empty : SafeReachable emptyLibrary
  | add_book {lib : Library} (id title author : String) :
      SafeReachable lib → (∀ memberId, ¬ borrowedBy lib id memberId) →
      SafeReachable (addBook lib id title author)
  | register_member {lib : Library} (id nm : String) :
      SafeReachable lib → (∀ m, lib.members id = some m → m.borrowedBookIds = []) →
      SafeReachable (registerMember lib id nm)
  | borrow_book {lib : Library} (memberId bookId : String) :
      SafeReachable lib → SafeReachable (borrowBook lib memberId bookId).1
  | return_book {lib : Library} (memberId bookId : String) :
      SafeReachable lib → SafeReachable (returnBook lib memberId bookId).1

/-- The seeded library of the spec's concrete scenario: books B001
("Clean Code"), B002, B003 and member M001 (limit 3, the registration
default). -/
def lib8 : Library :=
  registerMember
    (addBook (addBook (addBook emptyLibrary "B001" "Clean Code" "Robert Martin")
      "B002" "Design Patterns" "Gang of Four")
      "B003" "The Pragmatic Programmer" "Hunt & Thomas")
    "M001" "Alice"

/-- `lib8` after M001 has borrowed all three seeded books: the member is at
its capacity of 3. -/
def fullLib : Library :=
  (borrowBook (borrowBook (borrowBook lib8 "M001" "B001").1 "M001" "B002").1
    "M001" "B003").1

/-- `fullLib` plus a fourth, available book. -/
def fullLib4 : Library :=
  addBook fullLib "B004" "Fourth Book" "Author"

/-- A reachable state in which `addBook` has overwritten a borrowed book:
B1 is borrowed by M1, then `addBook` is called again with id B1, replacing
the entry with a fresh available book while M1 still holds "B1". -/
def overwrittenLib : Library :=
  addBook (borrowBook (registerMember (addBook emptyLibrary "B1" "T" "A") "M1" "N")
    "M1" "B1").1 "B1" "T" "A"

/-- A state (not reachable through the API) in which member M1 holds "B1"
while the book is simultaneously marked available: used to show that
`returnBook` checks only membership, never availability. -/
def availableHeldLib : Library :=
  { books := mapInsert (fun _ => none) "B1"
      { id := "B1", title := "T", author := "A", available := true },
    members := mapInsert (fun _ => none) "M1"
      { id := "M1", name := "N", borrowedBookIds := ["B1"], maxBooks := 3 },
    notifications := [] }

theorem borrowBook_of_not_ok {lib : Library} {memberId bookId : String}
    (h : borrowOK lib memberId bookId = false) :
    borrowBook lib memberId bookId = (lib, false) := by
  unfold borrowOK at h
  unfold borrowBook
  cases hm : findMember lib memberId with
  | none => simp
  | some m =>
    cases hb : findBook lib bookId with
    | none => simp
    | some b =>
      rw [hm, hb] at h
      cases hav : b.available with
      | false => simp [hav]
      | true =>
        cases hcb : m.canBorrow with
        | false => simp [hav, hcb]
        | true => simp [hav, hcb] at h

theorem borrowBook_of_ok {lib : Library} {memberId bookId : String}
    (h : borrowOK lib memberId bookId = true) :
    ∃ b m, findBook lib bookId = some b ∧ findMember lib memberId = some m ∧
      b.available = true ∧ m.canBorrow = true ∧
      borrowBook lib memberId bookId =
        ({ books := mapInsert lib.books bookId b.markBorrowed,
           members := mapInsert lib.members memberId (m.addBorrowedBook bookId),
           notifications :=
             lib.notifications ++ [(memberId, "You have borrowed: " ++ b.title)] },
         true) := by
  unfold borrowOK at h
  cases hm : findMember lib memberId with
  | none => rw [hm] at h; simp at h
  | some m =>
    cases hb : findBook lib bookId with
    | none => rw [hm, hb] at h; simp at h
    | some b =>
      rw [hm, hb] at h
      simp only [Bool.and_eq_true] at h
      refine ⟨b, m, rfl, rfl, h.1, h.2, ?_⟩
      unfold borrowBook
      rw [hm, hb]
      simp [h.1, h.2]

theorem returnBook_of_not_ok {lib : Library} {memberId bookId : String}
    (h : returnOK lib memberId bookId = false) :
    returnBook lib memberId bookId = (lib, false) := by
  unfold returnOK at h
  unfold returnBook
  cases hm : findMember lib memberId with
  | none => simp
  | some m =>
    cases hb : findBook lib bookId with
    | none => simp
    | some b =>
      rw [hm, hb] at h
      simp only [] at h
      cases hh : m.hasBorrowedBook bookId with
      | false => simp [hh]
      | true => rw [hh] at h; simp at h

theorem returnBook_of_ok {lib : Library} {memberId bookId : String}
    (h : returnOK lib memberId bookId = true) :
    ∃ b m, findBook lib bookId = some b ∧ findMember lib memberId = some m ∧
      m.hasBorrowedBook bookId = true ∧
      returnBook lib memberId bookId =
        ({ books := mapInsert lib.books bookId b.markReturned,
           members := mapInsert lib.members memberId (m.removeBorrowedBook bookId),
           notifications :=
             lib.notifications ++ [(memberId, "You have returned: " ++ b.title)] },
         true) := by
  unfold returnOK at h
  cases hm : findMember lib memberId with
  | none => rw [hm] at h; simp at h
  | some m =>
    cases hb : findBook lib bookId with
    | none => rw [hm, hb] at h; simp at h
    | some b =>
      rw [hm, hb] at h
      simp only [] at h
      refine ⟨b, m, rfl, rfl, h, ?_⟩
      unfold returnBook
      rw [hm, hb]
      simp [h]

/-- C1: `borrowBook(memberId, bookId)` returns `false` and changes nothing
(no book, no member, no notification) when the member is absent, the book
is absent, the book is unavailable, or the member is at capacity
(`borrowOK = false`); otherwise it returns `true`, clears the book's
`available` flag, appends `bookId` to the member's borrowed sequence, and
sends exactly one notification to `memberId` with message
`"You have borrowed: "` followed by the book's title. -/
theorem borrowBook_correct (lib : Library) (memberId bookId : String) :
    (borrowOK lib memberId bookId = false →
      borrowBook lib memberId bookId = (lib, false)) ∧
    (borrowOK lib memberId bookId = true →
      ∃ b m, findBook lib bookId = some b ∧ findMember lib memberId = some m ∧
        b.available = true ∧ m.canBorrow = true ∧
        (borrowBook lib memberId bookId).2 = true ∧
        findBook (borrowBook lib memberId bookId).1 bookId = some b.markBorrowed ∧
        findMember (borrowBook lib memberId bookId).1 memberId =
          some (m.addBorrowedBook bookId) ∧
        (borrowBook lib memberId bookId).1.notifications =
          lib.notifications ++ [(memberId, "You have borrowed: " ++ b.title)]) := by
  constructor
  · exact borrowBook_of_not_ok
  · intro h
    obtain ⟨b, m, hb, hm, hav, hcb, heq⟩ := borrowBook_of_ok h
    refine ⟨b, m, hb, hm, hav, hcb, ?_, ?_, ?_, ?_⟩ <;>
      rw [heq] <;> simp [findBook, findMember, mapInsert]

/-- Witness for C1 at concrete inputs: the empty library rejects the borrow
without change, and the seeded library `lib8` accepts it. -/
theorem borrowBook_correct_witness :
    borrowBook emptyLibrary "M001" "B001" = (emptyLibrary, false) ∧
    (borrowBook lib8 "M001" "B001").2 = true := by
  refine ⟨(borrowBook_correct emptyLibrary "M001" "B001").1 (by decide), ?_⟩
  obtain ⟨b, m, hb, hm, hav, hcb, h2, hrest⟩ :=
    (borrowBook_correct lib8 "M001" "B001").2 (by decide)
  exact h2

/-- C2: `returnBook(memberId, bookId)` returns `false` and changes nothing
when the member is absent, the book is absent, or `bookId` is not in that
member's borrowed sequence (`returnOK = false`; in particular a member who
did not borrow the book cannot return it even if another member did);
otherwise it returns `true`, sets the book's `available` flag, erases
`bookId` from the member's borrowed sequence, and sends exactly one
notification to `memberId` with message `"You have returned: "` followed
by the book's title. -/
theorem returnBook_correct (lib : Library) (memberId bookId : String) :
    (returnOK lib memberId bookId = false →
      returnBook lib memberId bookId = (lib, false)) ∧
    (returnOK lib memberId bookId = true →
      ∃ b m, findBook lib bookId = some b ∧ findMember lib memberId = some m ∧
        m.hasBorrowedBook bookId = true ∧
        (returnBook lib memberId bookId).2 = true ∧
        findBook (returnBook lib memberId bookId).1 bookId = some b.markReturned ∧
        findMember (returnBook lib memberId bookId).1 memberId =
          some (m.removeBorrowedBook bookId) ∧
        (returnBook lib memberId bookId).1.notifications =
          lib.notifications ++ [(memberId, "You have returned: " ++ b.title)]) := by
  constructor
  · exact returnBook_of_not_ok
  · intro h
    obtain ⟨b, m, hb, hm, hh, heq⟩ := returnBook_of_ok h
    refine ⟨b, m, hb, hm, hh, ?_, ?_, ?_, ?_⟩ <;>
      rw [heq] <;> simp [findBook, findMember, mapInsert]

/-- Witness for C2 at concrete inputs: the seeded library rejects a return
of a never-borrowed book without change, and accepts the return after the
borrow. -/
theorem returnBook_correct_witness :
    returnBook lib8 "M001" "B001" = (lib8, false) ∧
    (returnBook (borrowBook lib8 "M001" "B001").1 "M001" "B001").2 = true := by
  refine ⟨(returnBook_correct lib8 "M001" "B001").1 (by decide), ?_⟩
  obtain ⟨b, m, hb, hm, hh, h2, hrest⟩ :=
    (returnBook_correct (borrowBook lib8 "M001" "B001").1 "M001" "B001").2 (by decide)
  exact h2

/-- C3: each operation is atomic and total: `borrowBook` and `returnBook`
either return `true` having appended exactly one notification (with the
mutations of C1/C2 committed), or return `false` with the post-state equal
to the pre-state; being total Lean functions, they never throw. -/
theorem operations_atomic (lib : Library) (memberId bookId : String) :
    (((borrowBook lib memberId bookId).2 = true ∧
        ∃ p, (borrowBook lib memberId bookId).1.notifications =
          lib.notifications ++ [p]) ∨
      ((borrowBook lib memberId bookId).2 = false ∧
        (borrowBook lib memberId bookId).1 = lib)) ∧
    (((returnBook lib memberId bookId).2 = true ∧
        ∃ p, (returnBook lib memberId bookId).1.notifications =
          lib.notifications ++ [p]) ∨
      ((returnBook lib memberId bookId).2 = false ∧
        (returnBook lib memberId bookId).1 = lib)) := by
  constructor
  · cases hok : borrowOK lib memberId bookId with
    | false => right; rw [borrowBook_of_not_ok hok]; exact ⟨rfl, rfl⟩
    | true =>
      left
      obtain ⟨b, m, hb, hm, hav, hcb, heq⟩ := borrowBook_of_ok hok
      rw [heq]
      exact ⟨rfl, ⟨(memberId, "You have borrowed: " ++ b.title), rfl⟩⟩
  · cases hok : returnOK lib memberId bookId with
    | false => right; rw [returnBook_of_not_ok hok]; exact ⟨rfl, rfl⟩
    | true =>
      left
      obtain ⟨b, m, hb, hm, hh, heq⟩ := returnBook_of_ok hok
      rw [heq]
      exact ⟨rfl, ⟨(memberId, "You have returned: " ++ b.title), rfl⟩⟩

/-- C6: after `addBook(id, title, author)`, `findBook id` yields a book
with that id, title and author and `available = true` — for every prior
state, so in particular an existing entry under the same id (even an
unavailable one) is silently replaced by the fresh available book. -/
theorem addBook_replaces (lib : Library) (id title author : String) :
    findBook (addBook lib id title author) id =
      some { id := id, title := title, author := author, available := true } := by
  simp [findBook, addBook, mapInsert, Book.make]

/-- C7: `findBook`/`findMember` return the absence sentinel `none` exactly
when no record with that id is stored, and otherwise return the stored
record; both are total functions, so neither ever throws. -/
theorem find_lookup_spec (lib : Library) (id : String) :
    (findBook lib id = none ↔ lib.books id = none) ∧
    (∀ b, lib.books id = some b → findBook lib id = some b) ∧
    (findMember lib id = none ↔ lib.members id = none) ∧
    (∀ m, lib.members id = some m → findMember lib id = some m) :=
  ⟨Iff.rfl, fun _ h => h, Iff.rfl, fun _ h => h⟩

/-- Witness for C7 at concrete inputs: a missing id yields `none`, a stored
member is returned as stored. -/
theorem find_lookup_spec_witness :
    findBook lib8 "NOPE" = none ∧
    findMember lib8 "M001" = some (Member.make "M001" "Alice") :=
  ⟨(find_lookup_spec lib8 "NOPE").1.mpr (by decide),
   (find_lookup_spec lib8 "M001").2.2.2 (Member.make "M001" "Alice") (by decide)⟩

/-- C9: a successful `borrowBook`/`returnBook` changes only the named
book's `available` flag, the named member's borrowed sequence, and appends
one notifier record; every other book and member is untouched, and the
modified book keeps its id/title/author while the modified member keeps
its id/name/maxBooks. -/
theorem successful_ops_frame (lib : Library) (memberId bookId : String) :
    ((borrowBook lib memberId bookId).2 = true →
      (∀ id, id ≠ bookId →
        (borrowBook lib memberId bookId).1.books id = lib.books id) ∧
      (∀ id, id ≠ memberId →
        (borrowBook lib memberId bookId).1.members id = lib.members id) ∧
      (∃ b, lib.books bookId = some b ∧
        (borrowBook lib memberId bookId).1.books bookId = some b.markBorrowed) ∧
      (∃ m, lib.members memberId = some m ∧
        (borrowBook lib memberId bookId).1.members memberId =
          some (m.addBorrowedBook bookId)) ∧
      (∃ p, (borrowBook lib memberId bookId).1.notifications =
        lib.notifications ++ [p])) ∧
    ((returnBook lib memberId bookId).2 = true →
      (∀ id, id ≠ bookId →
        (returnBook lib memberId bookId).1.books id = lib.books id) ∧
      (∀ id, id ≠ memberId →
        (returnBook lib memberId bookId).1.members id = lib.members id) ∧
      (∃ b, lib.books bookId = some b ∧
        (returnBook lib memberId bookId).1.books bookId = some b.markReturned) ∧
      (∃ m, lib.members memberId = some m ∧
        (returnBook lib memberId bookId).1.members memberId =
          some (m.removeBorrowedBook bookId)) ∧
      (∃ p, (returnBook lib memberId bookId).1.notifications =
        lib.notifications ++ [p])) := by
  constructor
  · intro h2
    cases hok : borrowOK lib memberId bookId with
    | false => rw [borrowBook_of_not_ok hok] at h2; simp at h2
    | true =>
      obtain ⟨b, m, hb, hm, hav, hcb, heq⟩ := borrowBook_of_ok hok
      rw [heq]
      refine ⟨?_, ?_, ⟨b, hb, ?_⟩, ⟨m, hm, ?_⟩, ⟨_, rfl⟩⟩ <;>
        simp [mapInsert]
      · intro id hne; simp [hne]
      · intro id hne; simp [hne]
  · intro h2
    cases hok : returnOK lib memberId bookId with
    | false => rw [returnBook_of_not_ok hok] at h2; simp at h2
    | true =>
      obtain ⟨b, m, hb, hm, hh, heq⟩ := returnBook_of_ok hok
      rw [heq]
      refine ⟨?_, ?_, ⟨b, hb, ?_⟩, ⟨m, hm, ?_⟩, ⟨_, rfl⟩⟩ <;>
        simp [mapInsert]
      · intro id hne; simp [hne]
      · intro id hne; simp [hne]

/-- Witness for C9 at concrete inputs: borrowing B001 in the seeded library
leaves B002 untouched, and so does the subsequent return. -/
theorem successful_ops_frame_witness :
    (borrowBook lib8 "M001" "B001").1.books "B002" = lib8.books "B002" ∧
    (returnBook (borrowBook lib8 "M001" "B001").1 "M001" "B001").1.books "B002" =
      (borrowBook lib8 "M001" "B001").1.books "B002" :=
  ⟨((successful_ops_frame lib8 "M001" "B001").1 (by decide)).1 "B002" (by decide),
   ((successful_ops_frame (borrowBook lib8 "M001" "B001").1 "M001" "B001").2
      (by decide)).1 "B002" (by decide)⟩

/-- C10: `returnBook` never consults the book's availability: whenever the
member exists, the book exists, and the member's borrowed sequence contains
`bookId`, the call returns `true` and sends the notification — even if the
book's `available` flag is already `true`. -/
theorem returnBook_ignores_availability (lib : Library) (memberId bookId : String)
    (m : Member) (b : Book)
    (hm : findMember lib memberId = some m) (hb : findBook lib bookId = some b)
    (hh : m.hasBorrowedBook bookId = true) :
    (returnBook lib memberId bookId).2 = true ∧
    (returnBook lib memberId bookId).1.notifications =
      lib.notifications ++ [(memberId, "You have returned: " ++ b.title)] := by
  have hok : returnOK lib memberId bookId = true := by
    unfold returnOK
    rw [hm, hb]
    exact hh
  obtain ⟨b2, m2, hb2, hm2, hh2, heq⟩ := returnBook_of_ok hok
  rw [hb] at hb2
  obtain rfl : b2 = b := by injection hb2 with h; exact h.symm
  rw [heq]
  exact ⟨rfl, rfl⟩

/-- Witness for C10: in `availableHeldLib` the book B1 is marked available
yet still listed in M1's borrowed sequence; the return still succeeds and
notifies. -/
theorem returnBook_ignores_availability_witness :
    (returnBook availableHeldLib "M1" "B1").2 = true ∧
    (returnBook availableHeldLib "M1" "B1").1.notifications =
      [("M1", "You have returned: T")] := by
  have h := returnBook_ignores_availability availableHeldLib "M1" "B1"
    { id := "M1", name := "N", borrowedBookIds := ["B1"], maxBooks := 3 }
    { id := "B1", title := "T", author := "A", available := true }
    (by decide) (by decide) (by decide)
  simpa using h

/-- C8: the spec's concrete scenario on the seeded library `lib8`:
borrowing B001 as M001 succeeds, marks it unavailable, and records exactly
("M001", "You have borrowed: Clean Code"); a subsequent borrow of B001 as
M002 fails and records nothing new; the subsequent return by M001 succeeds
and B001 is available again. -/
theorem concrete_scenario :
    (borrowBook lib8 "M001" "B001").2 = true ∧
    (findBook (borrowBook lib8 "M001" "B001").1 "B001").map Book.available =
      some false ∧
    (borrowBook lib8 "M001" "B001").1.notifications =
      [("M001", "You have borrowed: Clean Code")] ∧
    (borrowBook (borrowBook lib8 "M001" "B001").1 "M002" "B001").2 = false ∧
    (borrowBook (borrowBook lib8 "M001" "B001").1 "M002" "B001").1.notifications =
      [("M001", "You have borrowed: Clean Code")] ∧
    (returnBook (borrowBook (borrowBook lib8 "M001" "B001").1 "M002" "B001").1
      "M001" "B001").2 = true ∧
    (findBook (returnBook (borrowBook (borrowBook lib8 "M001" "B001").1
      "M002" "B001").1 "M001" "B001").1 "B001").map Book.available = some true := by
  decide

theorem reachable_capacity {lib : Library} (h : Reachable lib) :
    ∀ memberId m, lib.members memberId = some m →
      m.borrowedBookIds.length ≤ m.maxBooks := by
  induction h with
  | empty => intro mid m hm; simp [emptyLibrary] at hm
  | add_book id t a _ ih =>
    intro mid m hm
    exact ih mid m hm
  | register_member id nm _ ih =>
    intro mid m hm
    simp only [registerMember, mapInsert] at hm
    by_cases he : mid = id
    · rw [if_pos he] at hm
      obtain rfl : Member.make id nm = m := by injection hm
      simp [Member.make]
    · rw [if_neg he] at hm
      exact ih mid m hm
  | borrow_book memberId bookId _ ih =>
    cases hok : borrowOK _ memberId bookId with
    | false =>
      rw [borrowBook_of_not_ok hok]
      exact ih
    | true =>
      obtain ⟨b, m, hb, hm, hav, hcb, heq⟩ := borrowBook_of_ok hok
      rw [heq]
      intro mid m2 hm2
      simp only [mapInsert] at hm2
      by_cases he : mid = memberId
      · rw [if_pos he] at hm2
        obtain rfl : m.addBorrowedBook bookId = m2 := by injection hm2
        have hlt : m.borrowedBookIds.length < m.maxBooks := by
          simpa [Member.canBorrow] using hcb
        simp [Member.addBorrowedBook]
        omega
      · rw [if_neg he] at hm2
        exact ih mid m2 hm2
  | return_book memberId bookId _ ih =>
    cases hok : returnOK _ memberId bookId with
    | false =>
      rw [returnBook_of_not_ok hok]
      exact ih
    | true =>
      obtain ⟨b, m, hb, hm, hh, heq⟩ := returnBook_of_ok hok
      rw [heq]
      intro mid m2 hm2
      simp only [mapInsert] at hm2
      by_cases he : mid = memberId
      · rw [if_pos he] at hm2
        obtain rfl : m.removeBorrowedBook bookId = m2 := by injection hm2
        have hle := ih memberId m hm
        have := (m.borrowedBookIds.erase_sublist bookId).length_le
        simp [Member.removeBorrowedBook]
        omega
      · rw [if_neg he] at hm2
        exact ih mid m2 hm2

/-- C5: in every reachable state, each member's borrowed sequence is no
longer than that member's `maxBooks`; and any `borrowBook` naming a member
whose borrowed sequence has length exactly `maxBooks` returns `false`,
whatever the named book's availability. -/
theorem capacity_invariant {lib : Library} (h : Reachable lib) :
    (∀ memberId m, findMember lib memberId = some m →
      m.borrowedBookIds.length ≤ m.maxBooks) ∧
    (∀ memberId bookId m, findMember lib memberId = some m →
      m.borrowedBookIds.length = m.maxBooks →
      (borrowBook lib memberId bookId).2 = false) := by
  refine ⟨reachable_capacity h, ?_⟩
  intro memberId bookId m hm hfull
  cases hok : borrowOK lib memberId bookId with
  | false => rw [borrowBook_of_not_ok hok]
  | true =>
    obtain ⟨b, m2, hb, hm2, hav, hcb, heq⟩ := borrowBook_of_ok hok
    rw [hm] at hm2
    have hmm : m2 = m := by injection hm2 with h2; exact h2.symm
    rw [hmm] at hcb
    have hlt : m.borrowedBookIds.length < m.maxBooks := by
      simpa [Member.canBorrow] using hcb
    omega

/-- Witness for C5: after M001 borrows the three seeded books, the state is
reachable, M001 is at capacity 3, and borrowing the freshly added,
available B004 fails. -/
theorem capacity_invariant_witness :
    (borrowBook fullLib4 "M001" "B004").2 = false := by
  have hr : Reachable fullLib4 := by
    apply Reachable.add_book
    apply Reachable.borrow_book
    apply Reachable.borrow_book
    apply Reachable.borrow_book
    apply Reachable.register_member
    apply Reachable.add_book
    apply Reachable.add_book
    apply Reachable.add_book
    exact Reachable.empty
  exact (capacity_invariant hr).2 "M001" "B004"
    { id := "M001", name := "Alice",
      borrowedBookIds := ["B001", "B002", "B003"], maxBooks := 3 }
    (by decide) (by decide)

theorem mapInsert_self {α : Type} (f : String → Option α) (k : String) (v : α) :
    mapInsert f k v k = some v := by
  simp [mapInsert]

theorem mapInsert_ne {α : Type} (f : String → Option α) (k : String) (v : α)
    (k2 : String) (h : k2 ≠ k) : mapInsert f k v k2 = f k2 := by
  simp [mapInsert, h]

theorem borrowedBy_iff (lib' lib : Library) (memberId : String) (m2 : Member)
    (hmem : lib'.members = mapInsert lib.members memberId m2) (bid mid : String) :
    borrowedBy lib' bid mid ↔
      (mid = memberId ∧ bid ∈ m2.borrowedBookIds) ∨
      (mid ≠ memberId ∧ borrowedBy lib bid mid) := by
  unfold borrowedBy
  rw [hmem]
  unfold mapInsert
  by_cases he : mid = memberId
  · simp [he]
  · simp [he]

theorem consistent_borrow {lib lib' : Library} {memberId bookId : String}
    {b : Book} {m : Member}
    (hb : lib.books bookId = some b) (hm : lib.members memberId = some m)
    (hav : b.available = true)
    (hbooks : lib'.books = mapInsert lib.books bookId b.markBorrowed)
    (hmems : lib'.members = mapInsert lib.members memberId (m.addBorrowedBook bookId))
    (hinv : ConsistentState lib) (hnd : MembersNodup lib) :
    ConsistentState lib' ∧ MembersNodup lib' := by
  obtain ⟨inv1, inv2⟩ := hinv
  have hnone : ∀ mid, ¬ borrowedBy lib bookId mid := by
    intro mid hbb
    obtain ⟨_, b2, hb2, hav2⟩ := inv2 bookId mid hbb
    rw [hb] at hb2
    injection hb2 with h3
    rw [← h3] at hav2
    rw [hav] at hav2
    simp at hav2
  have hBB : ∀ bid mid, borrowedBy lib' bid mid ↔
      (mid = memberId ∧ (bid ∈ m.borrowedBookIds ∨ bid = bookId)) ∨
      (mid ≠ memberId ∧ borrowedBy lib bid mid) := by
    intro bid mid
    rw [borrowedBy_iff lib' lib memberId (m.addBorrowedBook bookId) hmems bid mid]
    simp [Member.addBorrowedBook]
  have hbooks' : ∀ id2, lib'.books id2 =
      if id2 = bookId then some b.markBorrowed else lib.books id2 := by
    intro id2
    rw [hbooks]
    rfl
  have hmemm : bookId ∉ m.borrowedBookIds := fun hmem2 => hnone memberId ⟨m, hm, hmem2⟩
  refine ⟨⟨?_, ?_⟩, ?_⟩
  · intro id2 b2 hb2 hav2
    rw [hbooks' id2] at hb2
    by_cases he : id2 = bookId
    · subst he
      refine ⟨memberId, (hBB id2 memberId).mpr (Or.inl ⟨rfl, Or.inr rfl⟩), ?_⟩
      intro mid2 h2
      rcases (hBB id2 mid2).mp h2 with ⟨he2, _⟩ | ⟨hne2, hbb2⟩
      · exact he2
      · exact absurd hbb2 (hnone mid2)
    · rw [if_neg he] at hb2
      obtain ⟨mid0, hmid0, huniq⟩ := inv1 id2 b2 hb2 hav2
      have hold' : borrowedBy lib' id2 mid0 := by
        rcases eq_or_ne mid0 memberId with he0 | hne0
        · subst he0
          obtain ⟨m2, hm2, hmm2⟩ := hmid0
          rw [hm] at hm2
          injection hm2 with h3
          rw [← h3] at hmm2
          exact (hBB id2 mid0).mpr (Or.inl ⟨rfl, Or.inl hmm2⟩)
        · exact (hBB id2 mid0).mpr (Or.inr ⟨hne0, hmid0⟩)
      refine ⟨mid0, hold', ?_⟩
      intro mid2 h2
      rcases (hBB id2 mid2).mp h2 with ⟨he2, hin⟩ | ⟨hne2, hbb2⟩
      · rcases hin with hin | hin
        · rw [he2]
          exact huniq memberId ⟨m, hm, hin⟩
        · exact absurd hin he
      · exact huniq mid2 hbb2
  · intro id2 mid hbb
    rcases (hBB id2 mid).mp hbb with ⟨he2, hin⟩ | ⟨hne2, hbb2⟩
    · subst he2
      rcases hin with hin | hin
      · have hbbold : borrowedBy lib id2 mid := ⟨m, hm, hin⟩
        obtain ⟨⟨mid0, hmid0, huniq⟩, b2, hb2, hav2⟩ := inv2 id2 mid hbbold
        have hne : id2 ≠ bookId := fun he => hmemm (he ▸ hin)
        constructor
        · refine ⟨mid, (hBB id2 mid).mpr (Or.inl ⟨rfl, Or.inl hin⟩), ?_⟩
          intro mid2 h2
          rcases (hBB id2 mid2).mp h2 with ⟨he3, hin3⟩ | ⟨hne3, hbb3⟩
          · rw [he3]
          · have e1 := huniq mid2 hbb3
            have e2 := huniq mid hbbold
            rw [e1, e2]
        · exact ⟨b2, by rw [hbooks' id2, if_neg hne]; exact hb2, hav2⟩
      · subst hin
        constructor
        · refine ⟨mid, (hBB id2 mid).mpr (Or.inl ⟨rfl, Or.inr rfl⟩), ?_⟩
          intro mid2 h2
          rcases (hBB id2 mid2).mp h2 with ⟨he3, _⟩ | ⟨hne3, hbb3⟩
          · rw [he3]
          · exact absurd hbb3 (hnone mid2)
        · exact ⟨b.markBorrowed, by rw [hbooks' id2, if_pos rfl],
            by simp [Book.markBorrowed]⟩
    · obtain ⟨⟨mid0, hmid0, huniq⟩, b2, hb2, hav2⟩ := inv2 id2 mid hbb2
      have hne : id2 ≠ bookId := fun he => hnone mid (he ▸ hbb2)
      constructor
      · refine ⟨mid, (hBB id2 mid).mpr (Or.inr ⟨hne2, hbb2⟩), ?_⟩
        intro mid2 h2
        rcases (hBB id2 mid2).mp h2 with ⟨he3, hin3⟩ | ⟨hne3, hbb3⟩
        · rcases hin3 with hin3 | hin3
          · have e1 := huniq memberId ⟨m, hm, hin3⟩
            have e2 := huniq mid hbb2
            rw [he3, e1, e2]
          · exact absurd hin3 hne
        · have e1 := huniq mid2 hbb3
          have e2 := huniq mid hbb2
          rw [e1, e2]
      · exact ⟨b2, by rw [hbooks' id2, if_neg hne]; exact hb2, hav2⟩
  · intro mid m2 hm2
    rw [hmems] at hm2
    unfold mapInsert at hm2
    by_cases he : mid = memberId
    · rw [if_pos he] at hm2
      injection hm2 with h3
      rw [← h3]
      have hmnd := hnd memberId m hm
      simp [Member.addBorrowedBook, List.nodup_append, hmnd, hmemm]
    · rw [if_neg he] at hm2
      exact hnd mid m2 hm2

theorem consistent_return {lib lib' : Library} {memberId bookId : String}
    {b : Book} {m : Member}
    (_hb : lib.books bookId = some b) (hm : lib.members memberId = some m)
    (hhas : m.hasBorrowedBook bookId = true)
    (hbooks : lib'.books = mapInsert lib.books bookId b.markReturned)
    (hmems : lib'.members = mapInsert lib.members memberId (m.removeBorrowedBook bookId))
    (hinv : ConsistentState lib) (hnd : MembersNodup lib) :
    ConsistentState lib' ∧ MembersNodup lib' := by
  obtain ⟨inv1, inv2⟩ := hinv
  have hmem : bookId ∈ m.borrowedBookIds := by
    simpa [Member.hasBorrowedBook] using hhas
  have hold : borrowedBy lib bookId memberId := ⟨m, hm, hmem⟩
  obtain ⟨⟨midu, hmidu, huniqB⟩, bu, hbu, havu⟩ := inv2 bookId memberId hold
  have hME : ∀ mid, borrowedBy lib bookId mid → mid = memberId := by
    intro mid h2
    have e1 := huniqB mid h2
    have e2 := huniqB memberId hold
    rw [e1, e2]
  have hmnd := hnd memberId m hm
  have hnotin : bookId ∉ m.borrowedBookIds.erase bookId := by
    intro h2
    exact absurd ((hmnd.mem_erase_iff).mp h2).1 (by simp)
  have hBB : ∀ bid mid, borrowedBy lib' bid mid ↔
      (mid = memberId ∧ bid ∈ m.borrowedBookIds.erase bookId) ∨
      (mid ≠ memberId ∧ borrowedBy lib bid mid) := by
    intro bid mid
    rw [borrowedBy_iff lib' lib memberId (m.removeBorrowedBook bookId) hmems bid mid]
    simp [Member.removeBorrowedBook]
  have hbooks' : ∀ id2, lib'.books id2 =
      if id2 = bookId then some b.markReturned else lib.books id2 := by
    intro id2
    rw [hbooks]
    rfl
  refine ⟨⟨?_, ?_⟩, ?_⟩
  · intro id2 b2 hb2 hav2
    rw [hbooks' id2] at hb2
    by_cases he : id2 = bookId
    · rw [if_pos he] at hb2
      injection hb2 with h3
      rw [← h3] at hav2
      simp [Book.markReturned] at hav2
    · rw [if_neg he] at hb2
      obtain ⟨mid0, hmid0, huniq⟩ := inv1 id2 b2 hb2 hav2
      have hold' : borrowedBy lib' id2 mid0 := by
        rcases eq_or_ne mid0 memberId with he0 | hne0
        · subst he0
          obtain ⟨m2, hm2, hmm2⟩ := hmid0
          rw [hm] at hm2
          injection hm2 with h3
          rw [← h3] at hmm2
          exact (hBB id2 mid0).mpr
            (Or.inl ⟨rfl, (List.mem_erase_of_ne he).mpr hmm2⟩)
        · exact (hBB id2 mid0).mpr (Or.inr ⟨hne0, hmid0⟩)
      refine ⟨mid0, hold', ?_⟩
      intro mid2 h2
      rcases (hBB id2 mid2).mp h2 with ⟨he2, hin⟩ | ⟨hne2, hbb2⟩
      · rw [he2]
        exact huniq memberId ⟨m, hm, List.mem_of_mem_erase hin⟩
      · exact huniq mid2 hbb2
  · intro id2 mid hbb
    rcases (hBB id2 mid).mp hbb with ⟨he2, hin⟩ | ⟨hne2, hbb2⟩
    · subst he2
      have hid2 : id2 ∈ m.borrowedBookIds := List.mem_of_mem_erase hin
      have hne : id2 ≠ bookId := fun h => hnotin (h ▸ hin)
      have hbbold : borrowedBy lib id2 mid := ⟨m, hm, hid2⟩
      obtain ⟨⟨mid0, hmid0, huniq⟩, b2, hb2, hav2⟩ := inv2 id2 mid hbbold
      constructor
      · refine ⟨mid, (hBB id2 mid).mpr (Or.inl ⟨rfl, hin⟩), ?_⟩
        intro mid2 h2
        rcases (hBB id2 mid2).mp h2 with ⟨he3, hin3⟩ | ⟨hne3, hbb3⟩
        · rw [he3]
        · have e1 := huniq mid2 hbb3
          have e2 := huniq mid hbbold
          rw [e1, e2]
      · exact ⟨b2, by rw [hbooks' id2, if_neg hne]; exact hb2, hav2⟩
    · have hne : id2 ≠ bookId := fun h => hne2 (hME mid (h ▸ hbb2))
      obtain ⟨⟨mid0, hmid0, huniq⟩, b2, hb2, hav2⟩ := inv2 id2 mid hbb2
      constructor
      · refine ⟨mid, (hBB id2 mid).mpr (Or.inr ⟨hne2, hbb2⟩), ?_⟩
        intro mid2 h2
        rcases (hBB id2 mid2).mp h2 with ⟨he3, hin3⟩ | ⟨hne3, hbb3⟩
        · have hbbm : borrowedBy lib id2 memberId :=
            ⟨m, hm, List.mem_of_mem_erase hin3⟩
          have e1 := huniq memberId hbbm
          have e2 := huniq mid hbb2
          rw [he3, e1, e2]
        · have e1 := huniq mid2 hbb3
          have e2 := huniq mid hbb2
          rw [e1, e2]
      · exact ⟨b2, by rw [hbooks' id2, if_neg hne]; exact hb2, hav2⟩
  · intro mid m2 hm2
    rw [hmems] at hm2
    unfold mapInsert at hm2
    by_cases he : mid = memberId
    · rw [if_pos he] at hm2
      injection hm2 with h3
      rw [← h3]
      simpa [Member.removeBorrowedBook] using hmnd.erase bookId
    · rw [if_neg he] at hm2
      exact hnd mid m2 hm2

theorem safe_inv {lib : Library} (h : SafeReachable lib) :
    ConsistentState lib ∧ MembersNodup lib := by
  induction h with
  | empty =>
    refine ⟨⟨?_, ?_⟩, ?_⟩
    · intro id b hb hav
      simp [emptyLibrary] at hb
    · intro id mid hbb
      obtain ⟨m, hm, _⟩ := hbb
      simp [emptyLibrary] at hm
    · intro mid m hm
      simp [emptyLibrary] at hm
  | add_book id t a hr hsafe ih =>
    obtain ⟨⟨inv1, inv2⟩, nodup⟩ := ih
    rename_i lib
    have hbooks' : ∀ id2, (addBook lib id t a).books id2 =
        if id2 = id then some (Book.make id t a) else lib.books id2 := by
      intro id2
      rfl
    have hBB : ∀ bid mid, borrowedBy (addBook lib id t a) bid mid ↔
        borrowedBy lib bid mid := by
      intro bid mid
      exact Iff.rfl
    refine ⟨⟨?_, ?_⟩, ?_⟩
    · intro id2 b2 hb2 hav2
      rw [hbooks' id2] at hb2
      by_cases he : id2 = id
      · rw [if_pos he] at hb2
        injection hb2 with h3
        rw [← h3] at hav2
        simp [Book.make] at hav2
      · rw [if_neg he] at hb2
        obtain ⟨mid0, hmid0, huniq⟩ := inv1 id2 b2 hb2 hav2
        refine ⟨mid0, (hBB id2 mid0).mpr hmid0, ?_⟩
        intro mid2 h2
        exact huniq mid2 ((hBB id2 mid2).mp h2)
    · intro id2 mid hbb
      have hbb' : borrowedBy lib id2 mid := (hBB id2 mid).mp hbb
      obtain ⟨⟨mid0, hmid0, huniq⟩, b2, hb2, hav2⟩ := inv2 id2 mid hbb'
      have hne : id2 ≠ id := fun he => hsafe mid (he ▸ hbb')
      refine ⟨⟨mid0, (hBB id2 mid0).mpr hmid0, ?_⟩,
        ⟨b2, by rw [hbooks' id2, if_neg hne]; exact hb2, hav2⟩⟩
      intro mid2 h2
      exact huniq mid2 ((hBB id2 mid2).mp h2)
    · intro mid m hm
      exact nodup mid m hm
  | register_member id nm hr hsafe ih =>
    obtain ⟨⟨inv1, inv2⟩, nodup⟩ := ih
    rename_i lib
    have hBB : ∀ bid mid, borrowedBy (registerMember lib id nm) bid mid ↔
        mid ≠ id ∧ borrowedBy lib bid mid := by
      intro bid mid
      rw [borrowedBy_iff (registerMember lib id nm) lib id (Member.make id nm)
        rfl bid mid]
      simp [Member.make]
    have hno : ∀ bid, ¬ borrowedBy lib bid id := by
      intro bid hbb
      obtain ⟨m, hm, hmm⟩ := hbb
      rw [hsafe m hm] at hmm
      simp at hmm
    refine ⟨⟨?_, ?_⟩, ?_⟩
    · intro id2 b2 hb2 hav2
      obtain ⟨mid0, hmid0, huniq⟩ := inv1 id2 b2 hb2 hav2
      have hne0 : mid0 ≠ id := fun he => hno id2 (he ▸ hmid0)
      refine ⟨mid0, (hBB id2 mid0).mpr ⟨hne0, hmid0⟩, ?_⟩
      intro mid2 h2
      exact huniq mid2 ((hBB id2 mid2).mp h2).2
    · intro id2 mid hbb
      obtain ⟨hne, hbb'⟩ := (hBB id2 mid).mp hbb
      obtain ⟨⟨mid0, hmid0, huniq⟩, b2, hb2, hav2⟩ := inv2 id2 mid hbb'
      have hne0 : mid0 ≠ id := fun he => hno id2 (he ▸ hmid0)
      refine ⟨⟨mid0, (hBB id2 mid0).mpr ⟨hne0, hmid0⟩, ?_⟩, ⟨b2, hb2, hav2⟩⟩
      intro mid2 h2
      exact huniq mid2 ((hBB id2 mid2).mp h2).2
    · intro mid m hm
      by_cases he : mid = id
      · have : (registerMember lib id nm).members mid = some (Member.make id nm) := by
          simp [registerMember, mapInsert, he]
        rw [this] at hm
        injection hm with h3
        rw [← h3]
        simp [Member.make]
      · have : (registerMember lib id nm).members mid = lib.members mid := by
          simp [registerMember, mapInsert, he]
        rw [this] at hm
        exact nodup mid m hm
  | borrow_book memberId bookId hr ih =>
    obtain ⟨⟨inv1, inv2⟩, nodup⟩ := ih
    cases hok : borrowOK _ memberId bookId with
    | false =>
      rw [borrowBook_of_not_ok hok]
      exact ⟨⟨inv1, inv2⟩, nodup⟩
    | true =>
      obtain ⟨b, m, hb, hm, hav, hcb, heq⟩ := borrowBook_of_ok hok
      have hb' : _ = some b := hb
      have hm' : _ = some m := hm
      exact consistent_borrow hb' hm' hav (by rw [heq]) (by rw [heq])
        ⟨inv1, inv2⟩ nodup
  | return_book memberId bookId hr ih =>
    obtain ⟨⟨inv1, inv2⟩, nodup⟩ := ih
    cases hok : returnOK _ memberId bookId with
    | false =>
      rw [returnBook_of_not_ok hok]
      exact ⟨⟨inv1, inv2⟩, nodup⟩
    | true =>
      obtain ⟨b, m, hb, hm, hh, heq⟩ := returnBook_of_ok hok
      have hb' : _ = some b := hb
      have hm' : _ = some m := hm
      exact consistent_return hb' hm' hh (by rw [heq]) (by rw [heq])
        ⟨inv1, inv2⟩ nodup

/-- C4 fails as stated: `overwrittenLib` is reachable (addBook, register,
borrow, then addBook again with the same id "B1"), yet "B1" sits in M1's
borrowed sequence while the freshly re-added book "B1" is available. -/
theorem addBook_overwrite_counterexample :
    Reachable overwrittenLib ∧ ¬ ConsistentState overwrittenLib := by
  constructor
  · unfold overwrittenLib
    apply Reachable.add_book
    apply Reachable.borrow_book
    apply Reachable.register_member
    apply Reachable.add_book
    exact Reachable.empty
  · intro hc
    obtain ⟨h1, h2⟩ := hc
    have hbb : borrowedBy overwrittenLib "B1" "M1" := by
      refine ⟨Member.mk "M1" "N" ["B1"] 3, ?_, ?_⟩
      · decide
      · decide
    obtain ⟨_, b, hb, hav⟩ := h2 "B1" "M1" hbb
    have hbook : overwrittenLib.books "B1" =
        some { id := "B1", title := "T", author := "A", available := true } := by
      decide
    rw [hbook] at hb
    injection hb with h3
    rw [← h3] at hav
    simp at hav

/-- C4 (amended): the borrowed/available relation is a consistent partial
bijection in every state reachable by sequences in which no `addBook` call
reuses the id of a currently borrowed book and no `registerMember` call
reuses the id of a member currently holding books. -/
theorem safeReachable_consistent {lib : Library} (h : SafeReachable lib) :
    ConsistentState lib :=
  (safe_inv h).1

/-- Witness for the amended C4: a concrete safely-reachable state (one
book added, one member registered, one successful borrow) is consistent. -/
theorem safeReachable_consistent_witness :
    ConsistentState (borrowBook (registerMember (addBook emptyLibrary "B1" "T" "A")
      "M1" "N") "M1" "B1").1 := by
  apply safeReachable_consistent
  apply SafeReachable.borrow_book
  apply SafeReachable.register_member
  · apply SafeReachable.add_book
    · exact SafeReachable.empty
    · intro mid hbb
      obtain ⟨m, hm, _⟩ := hbb
      simp [emptyLibrary] at hm
  · intro m hm
    simp [addBook, emptyLibrary] at hm
